import Mathlib

/-!
Verification development for the agentic blog-generation pipeline
(`src/agent/...`): a shallow embedding in Lean 4 of the evaluator gate
(`agents/evaluator.py`), the composer and refiner (`agents/composer.py`,
`agents/refiner.py`), the orchestrator's refinement loop
(`orchestrator.py`), and the retrieval pipeline (`retrieval.py`),
together with theorems settling the specification's claims about them.

Modelling conventions:
* Python strings are Lean `String`s; character-level work happens on
  `String.data` (`List Char`).  `len` is `String.length`, `str.split()`
  is `pyWords`, `str.strip()` is `pyStrip`, `str.upper()`/`lower()` are
  mapped per character (ASCII-faithful, which covers every string the
  pipeline manipulates).
* Python `int` is `Int` (`Nat` where the source value is a count).
* Calls to the external language model, the vector index and the clock
  are oracles: explicit `Except`/`Option`-valued parameters.  A raised
  exception inside such a call is the `.error` case; the embedded code
  handles it exactly where the Python `try/except` does.
* Fractional score bonuses (`0.05`, `0.02`, ...) are embedded as exact
  rationals; the float comparison `total < max_chars * 1.1` is embedded
  as the exact integer comparison `10 * total < 11 * max_chars`.
-/

/-! ### Python string primitives -/

/-- Python whitespace for `str.split()`, `str.strip()` and the regex
class `\s` (ASCII range): space, tab, newline, carriage return,
vertical tab, form feed. -/
def isPySpace (c : Char) : Bool :=
  c == ' ' || c == '\t' || c == '\n' || c == '\x0d' || c == '\x0b' || c == '\x0c'

/-- `str.lstrip()` on a character list. -/
def pyLStripL (l : List Char) : List Char := l.dropWhile isPySpace

/-- `str.strip()` on a character list. -/
def pyStripL (l : List Char) : List Char :=
  ((pyLStripL l).reverse.dropWhile isPySpace).reverse

/-- Python `str.strip()`. -/
def pyStrip (s : String) : String := ⟨pyStripL s.data⟩

/-- Python `str.lstrip()`. -/
def pyLStrip (s : String) : String := ⟨pyLStripL s.data⟩

/-- Worker for `str.split()`: `acc` is the current word, reversed. -/
def pyWordsGo : List Char → List Char → List (List Char)
  | acc, [] => if acc.isEmpty then [] else [acc.reverse]
  | acc, c :: cs =>
    if isPySpace c then
      if acc.isEmpty then pyWordsGo [] cs else acc.reverse :: pyWordsGo [] cs
    else pyWordsGo (c :: acc) cs

/-- Python `str.split()` (no argument): maximal runs of non-whitespace. -/
def pyWords (s : String) : List String := (pyWordsGo [] s.data).map String.mk

/-- `len(s.split())`, the word count used throughout the pipeline. -/
def pyWordCount (s : String) : Nat := (pyWords s).length

/-- Is the first list a prefix of the second (pattern first)? -/
def listIsPrefixB : List Char → List Char → Bool
  | [], _ => true
  | _ :: _, [] => false
  | p :: ps, c :: cs => p == c && listIsPrefixB ps cs

/-- Python `s.startswith(pre)`. -/
def pyStartsWith (s pre : String) : Bool := listIsPrefixB pre.data s.data

/-- Scan for a substring occurrence: does `needle` occur in the list? -/
def listContainsSub (needle : List Char) : List Char → Bool
  | [] => listIsPrefixB needle []
  | c :: cs => listIsPrefixB needle (c :: cs) || listContainsSub needle cs

/-- Python `needle in hay` (substring containment). -/
def pyInStr (needle hay : String) : Bool := listContainsSub needle.data hay.data

/-- Split on a single character, keeping empty parts
(Python `s.split('\n')`). -/
def splitOnCharL (sep : Char) : List Char → List (List Char)
  | [] => [[]]
  | c :: cs =>
    if c == sep then [] :: splitOnCharL sep cs
    else
      match splitOnCharL sep cs with
      | p :: ps => (c :: p) :: ps
      | [] => [[c]]

/-- Python `s.split('\n')`. -/
def pySplitNL (s : String) : List String := (splitOnCharL '\n' s.data).map String.mk

/-- Python `str.upper()` (ASCII case mapping). -/
def pyUpper (s : String) : String := ⟨s.data.map Char.toUpper⟩

/-- Python `str.lower()` (ASCII case mapping). -/
def pyLower (s : String) : String := ⟨s.data.map Char.toLower⟩

/-- Does the regex fragment `#\s` match at the head of the list?  Used
for `re.search(r'^#\s+', ..., re.MULTILINE)`: a match needs `#` and at
least one whitespace character, so testing one `\s` suffices. -/
def h1At : List Char → Bool
  | '#' :: c :: _ => isPySpace c
  | _ => false

/-- Does the regex fragment `##\s` match at the head of the list
(for `r'^##\s+'`)? -/
def h2At : List Char → Bool
  | '#' :: '#' :: c :: _ => isPySpace c
  | _ => false

/-- After one `#`, match the rest of `#+\s` (for `r'^#+\s+'`). -/
def hashRunThenSpace : List Char → Bool
  | [] => false
  | c :: rest => if c == '#' then hashRunThenSpace rest else isPySpace c

/-- Does the regex fragment `#+\s` match at the head of the list? -/
def hAnyAt : List Char → Bool
  | '#' :: rest => hashRunThenSpace rest
  | _ => false

/-- `re.search` with `re.MULTILINE` for a pattern anchored at `^`:
test `pat` at the start of the string and after every newline.
`atStart` records whether the current position is a line start. -/
def lineStartSearchGo (pat : List Char → Bool) : Bool → List Char → Bool
  | atStart, [] => atStart && pat []
  | atStart, c :: cs =>
    (atStart && pat (c :: cs)) || lineStartSearchGo pat (c == '\n') cs

/-- `bool(re.search(pat, s, re.MULTILINE))` for a `^`-anchored pattern. -/
def lineStartSearch (pat : List Char → Bool) (s : String) : Bool :=
  lineStartSearchGo pat true s.data

/-- `len(re.findall(pat, s, re.MULTILINE))` for a `^`-anchored pattern:
one match per line start where the pattern fires (matches of
`^##\s+` start at distinct line starts and never overlap a later
line-start `#`, since `\s+` cannot consume a `#`). -/
def lineStartCountGo (pat : List Char → Bool) : Bool → List Char → Nat
  | atStart, [] => if atStart && pat [] then 1 else 0
  | atStart, c :: cs =>
    (if atStart && pat (c :: cs) then 1 else 0) + lineStartCountGo pat (c == '\n') cs

/-- Match count for a `^`-anchored pattern over a string. -/
def lineStartCount (pat : List Char → Bool) (s : String) : Nat :=
  lineStartCountGo pat true s.data

/-! ### Data model (`models.py`, restricted to the fields the embedded
fragment reads) -/

/-- `GenerationSpec` (pydantic defaults from `models.py`); fields not
read by the embedded code are omitted. -/
structure GenerationSpec where
  topic : String
  length : String := "medium"
  min_words : Int := 1000
  max_words : Int := 1500
deriving Repr, DecidableEq

/-- The draft dictionary produced by `ComposerAgent.compose_draft` and
`RefinerAgent.refine_draft`.  `error` is `some` exactly when the Python
dict carries an `'error'` key.  (A composer error dict omits the other
keys; the orchestrator returns before reading them, so record defaults
are never observed.) -/
structure Draft where
  content : String
  word_count : Int
  topic : String
  iteration : Int
  error : Option String := none
deriving Repr, DecidableEq

/-! ### Evaluator (`agents/evaluator.py`) -/

/-- `EvaluatorAgent._check_structure`. -/
def check_structure (content : String) : Bool :=
  let has_h1 := lineStartSearch h1At (pyStrip content)
  let has_sections := decide (2 ≤ lineStartCount h2At content)
  let has_content_length := decide (100 ≤ pyWordCount content)
  has_h1 && has_sections && has_content_length

/-- `EvaluatorAgent._check_word_count`. -/
def check_word_count (word_count : Int) (spec : GenerationSpec) : Bool :=
  decide (spec.min_words ≤ word_count ∧ word_count ≤ spec.max_words)

/-- `EvaluatorAgent._check_markdown_formatting`. -/
def check_markdown_formatting (content : String) : Bool :=
  lineStartSearch hAnyAt content

/-- Result dict of `EvaluatorAgent._perform_basic_validation`; the
`checks` sub-dict is flattened into the three `_ok` fields. -/
structure BasicValidation where
  passed : Bool
  structure_ok : Bool
  word_count_ok : Bool
  markdown_ok : Bool
  feedback : String
deriving Repr, DecidableEq

/-- `EvaluatorAgent._perform_basic_validation`. -/
def perform_basic_validation (draft : Draft) (spec : GenerationSpec) : BasicValidation :=
  let content := draft.content
  let word_count := draft.word_count
  let cs := check_structure content
  let cw := check_word_count word_count spec
  let cm := check_markdown_formatting content
  let feedback_parts : List String :=
    (if !cw then
      ["Word count (" ++ toString word_count ++ ") not in range "
        ++ toString spec.min_words ++ "-" ++ toString spec.max_words]
     else [])
    ++ (if !cs then ["Missing proper introduction, body, or conclusion sections"] else [])
    ++ (if !cm then ["Markdown formatting issues detected"] else [])
  { passed := cs && cw && cm
    structure_ok := cs
    word_count_ok := cw
    markdown_ok := cm
    feedback :=
      if feedback_parts.isEmpty then "All basic checks passed"
      else String.intercalate "; " feedback_parts }

/-- The `approved`/`feedback` pair returned by the evaluator. -/
structure EvalVerdict where
  approved : Bool
  feedback : String
deriving Repr, DecidableEq

/-- `response.split('\n', 1)[1]` when `'\n' in response`. -/
def afterFirstNewlineL : List Char → Option (List Char)
  | [] => none
  | c :: rest => if c == '\n' then some rest else afterFirstNewlineL rest

/-- `EvaluatorAgent._parse_evaluation_response`. -/
def parse_evaluation_response (response : String) : EvalVerdict :=
  let response_upper := pyUpper response
  if pyStartsWith response_upper "APPROVED" then
    { approved := true, feedback := "Content meets quality standards" }
  else if pyStartsWith response_upper "REJECTED" then
    let feedback :=
      match afterFirstNewlineL response.data with
      | some rest => String.mk rest
      | none => "Content needs improvement"
    { approved := false, feedback := pyStrip feedback }
  else
    { approved := false
      feedback := "Unable to determine approval status from evaluation response" }

/-- `EvaluatorAgent.evaluate_draft`.  `llmResponse` is the outcome of
the single `llm_client.chat` call (`.error` = the call raised); the
second component of the result records whether that call was made. -/
def evaluate_draft (llmResponse : Except String String) (draft : Draft)
    (spec : GenerationSpec) : EvalVerdict × Bool :=
  let basic := perform_basic_validation draft spec
  if !basic.passed then
    ({ approved := false, feedback := basic.feedback }, false)
  else
    match llmResponse with
    | .ok response => (parse_evaluation_response response, true)
    | .error e => ({ approved := false, feedback := "Evaluation failed: " ++ e }, true)

/-! ### Composer (`agents/composer.py`) -/

/-- The frontmatter-skipping pass inside
`ComposerAgent._clean_frontmatter_from_response`: iterate over the
lines after the opening `---`; every line whose `strip()` is `---`
clears the `in_frontmatter` flag and is itself skipped; other lines are
kept once the flag is clear. -/
def frontmatterFilterGo : Bool → List String → List String
  | _, [] => []
  | inFm, line :: rest =>
    if pyStrip line = "---" then frontmatterFilterGo false rest
    else if inFm then frontmatterFilterGo true rest
    else line :: frontmatterFilterGo inFm rest

/-- `ComposerAgent._clean_frontmatter_from_response`. -/
def clean_frontmatter_from_response (response : String) : String :=
  let lines := pySplitNL (pyStrip response)
  let cleaned :=
    match lines with
    | line0 :: rest => if line0 = "---" then frontmatterFilterGo true rest else []
    | [] => []
  if (match lines with | line0 :: _ => line0 = "---" | [] => false) && !cleaned.isEmpty then
    pyLStrip (String.intercalate "\n" cleaned)
  else
    match lines with
    | line0 :: rest =>
      if !pyStartsWith line0 "# " then
        let first_content_line := ((lines.filter (fun l => !(pyStrip l).isEmpty)).headD "")
        if !first_content_line.isEmpty && !pyStartsWith first_content_line "# " then
          if !first_content_line.isEmpty && !pyStartsWith first_content_line "#" then
            "# " ++ first_content_line ++ "\n\n" ++ String.intercalate "\n" rest
          else pyStrip response
        else pyStrip response
      else pyStrip response
    | [] => pyStrip response

/-- `ComposerAgent.compose_draft`.  `llmResponse` is the outcome of the
`llm_client.chat` call.  Note the source computes `word_count` from the
raw `response`, not from the cleaned content (composer.py line 119). -/
def compose_draft (llmResponse : Except String String) (topic : String) : Draft :=
  match llmResponse with
  | .ok response =>
    { content := clean_frontmatter_from_response response
      word_count := (pyWordCount response : Int)
      topic := topic
      iteration := 1
      error := none }
  | .error e =>
    { content := "", word_count := 0, topic := topic, iteration := 1, error := some e }

/-! ### Refiner (`agents/refiner.py`) -/

/-- Split a string at the first occurrence of `sep` (one step of
Python `str.split(sep, maxsplit)`). -/
def splitFirstL (sep : List Char) : List Char → Option (List Char × List Char)
  | [] => if sep.isEmpty then some ([], []) else none
  | c :: cs =>
    if decide (sep <+: (c :: cs)) then some ([], (c :: cs).drop sep.length)
    else
      match splitFirstL sep cs with
      | some (pre, post) => some (c :: pre, post)
      | none => none

/-- Python `s.split(sep, 2)`: at most three parts. -/
def pySplitMax2 (sep s : String) : List String :=
  match splitFirstL sep.data s.data with
  | none => [s]
  | some (a, rest) =>
    match splitFirstL sep.data rest with
    | none => [String.mk a, String.mk rest]
    | some (b, rest2) => [String.mk a, String.mk b, String.mk rest2]

/-- `RefinerAgent.refine_draft`.  On success the refined draft gets a
fresh content/word count and `iteration + 1`; if the model call raises,
the source returns `{**draft, 'error': ...}` — the previous draft with
an error message added. -/
def refine_draft (llmResponse : Except String String) (draft : Draft)
    (_feedback : Option String) : Draft :=
  let content := draft.content
  let frontmatter :=
    if pyStartsWith content "---" then
      match pySplitMax2 "---" content with
      | [p0, p1, _p2] => p0 ++ "---" ++ p1 ++ "---\n\n"
      | _ => ""
    else ""
  match llmResponse with
  | .ok response =>
    { content := if !frontmatter.isEmpty then frontmatter ++ response else response
      word_count := (pyWordCount response : Int)
      topic := draft.topic
      iteration := draft.iteration + 1
      error := none }
  | .error e => { draft with error := some ("Refinement failed: " ++ e) }

/-! ### Orchestrator (`orchestrator.py`) -/

/-- Python truthiness of the loop's `feedback` variable
(`None` initially, a string afterwards): `if feedback and ...`. -/
def fbTruthy : Option String → Bool
  | none => false
  | some s => !s.isEmpty

/-- The body of `BlogGenerationOrchestrator._iterative_refinement_loop`
(`for iteration in range(max_iterations)`), with the evaluator and
refiner supplied as call-indexed functions (`evalFn i` / `refineFn i`
stand for the agent calls made during loop pass `i`, each closed over
its own model response).  The first `Nat` is the number of loop passes
still allowed (`max_iterations - i`, structural fuel for `range`), the
second is the source's `iteration` index `i`.  Returns the draft
produced by the source's `return` statements together with the number
of evaluator calls made. -/
def refineLoopGo (evalFn : Nat → Draft → EvalVerdict)
    (refineFn : Nat → Draft → String → Draft) :
    Nat → Nat → Draft → Option String → Draft × Nat
  | 0, i, draft, _ => (draft, i)
  | remaining + 1, i, draft, fb =>
    let draft' :=
      if fbTruthy fb && decide (0 < i) then refineFn i draft (fb.getD "") else draft
    let ev := evalFn i draft'
    if ev.approved then (draft', i + 1)
    else refineLoopGo evalFn refineFn remaining (i + 1) draft' (some ev.feedback)

/-- `BlogGenerationOrchestrator._iterative_refinement_loop`: declared
`Optional[Dict]` in the source, but every return statement returns the
current draft. -/
def iterative_refinement_loop (evalFn : Nat → Draft → EvalVerdict)
    (refineFn : Nat → Draft → String → Draft) (cap : Nat)
    (initial_draft : Draft) : Option Draft :=
  some (refineLoopGo evalFn refineFn cap 0 initial_draft none).1

/-- The fallback at orchestrator.py lines 98–101
(`if not final_draft: final_draft = draft`): selects the loop result or
falls back to the initial draft, reporting whether the fallback branch
ran.  (The Python condition is dict falsiness; drafts built by the
composer and refiner are non-empty dicts, so it coincides with
`None`-ness.) -/
def orchestratorFallback (loopResult : Option Draft) (initial_draft : Draft) :
    Draft × Bool :=
  match loopResult with
  | some d => (d, false)
  | none => (initial_draft, true)

/-- `WorkflowResult` (orchestrator.py lines 22–30). -/
structure WorkflowResult where
  success : Bool
  final_content : Option Draft := none
  file_path : Option String := none
  iterations : Int := 0
  approval_status : String := "pending"
  error : Option String := none
deriving Repr, DecidableEq

/-- The caller-supplied `spec_data` dict: `none` models a missing key. -/
structure SpecData where
  topic : String := ""
  length : Option String := none
  min_words : Option Int := none
  max_words : Option Int := none
deriving Repr, DecidableEq

/-- The `word_counts` lookup keyed by length class, with the
`dict.get` default `(1000, 1500)` (orchestrator.py lines 62–63). -/
def lengthWordCounts (length : String) : Int × Int :=
  if length = "short" then (600, 1000)
  else if length = "medium" then (1000, 1500)
  else if length = "long" then (1500, 2500)
  else (1000, 1500)

/-- Lines 62–70 of `generate_blog_post`: fill the word-count fields if
absent and build the `GenerationSpec`. -/
def buildGenerationSpec (sd : SpecData) : GenerationSpec :=
  let bounds := lengthWordCounts (sd.length.getD "medium")
  { topic := sd.topic
    length := sd.length.getD "medium"
    min_words := sd.min_words.getD bounds.1
    max_words := sd.max_words.getD bounds.2 }

/-- `BlogGenerationOrchestrator.generate_blog_post`.  Oracles:
`retrieverSummary` is `retriever_output.get('summary')` (`none` or `""`
is falsy), `composeResp`/`evalResp n`/`refineResp n` are the model-call
outcomes inside the composer and the nth evaluator/refiner call, and
`ingestOutcome` is the ingestor result (`.ok` carries `file_path`,
`.error` the error message). -/
def generate_blog_post (retrieverSummary : Option String)
    (composeResp : Except String String)
    (evalResp : Nat → Except String String)
    (refineResp : Nat → Except String String)
    (ingestOutcome : Except String String)
    (max_iterations : Nat) (topic : String) (spec_data : SpecData) : WorkflowResult :=
  let spec := buildGenerationSpec spec_data
  if (retrieverSummary.getD "").isEmpty then
    { success := false, error := some "Failed to retrieve relevant context" }
  else
    let draft := compose_draft composeResp topic
    match draft.error with
    | some e => { success := false, error := some ("Composition failed: " ++ e) }
    | none =>
      let evalFn := fun n d => (evaluate_draft (evalResp n) d spec).1
      let refineFn := fun n d fb => refine_draft (refineResp n) d (some fb)
      let loopRes := iterative_refinement_loop evalFn refineFn max_iterations draft
      let final_draft := (orchestratorFallback loopRes draft).1
      match ingestOutcome with
      | .error e =>
        { success := false
          error := some ("Ingestion failed: " ++ e)
          iterations := final_draft.iteration }
      | .ok path =>
        { success := true
          final_content := some final_draft
          file_path := some path
          iterations := final_draft.iteration
          approval_status := "approved" }

/-! ### Retrieval (`retrieval.py`) -/

/-- A retrieved document (`models.Document`): `page_content` plus the
metadata keys the retrieval code reads.  `none` models a missing key;
`relevance_score` is `metadata.get("relevance_score", 0)`. -/
structure Doc where
  page_content : String
  title : Option String := none
  source_file : Option String := none
  date : Option String := none
  relevance_score : ℚ := 0
deriving Repr, DecidableEq

/-- The deduplication key: `doc.page_content[:200]`.  The source hashes
this prefix (`hash(...)`); the embedding uses the prefix itself, i.e.
models the hash as injective on the strings of a run. -/
def dedupKey (d : Doc) : String := String.mk (d.page_content.data.take 200)

/-- The loop inside `_deduplicate_results`, with the `seen_content` set
as an accumulated list of keys. -/
def dedupGo : List String → List Doc → List Doc
  | _, [] => []
  | seen, d :: rest =>
    if dedupKey d ∈ seen then dedupGo seen rest
    else d :: dedupGo (dedupKey d :: seen) rest

/-- `_deduplicate_results`. -/
def _deduplicate_results (results : List Doc) : List Doc := dedupGo [] results

/-- The composite relevance score computed inside `_rerank_results` for
one document.  `daysOld` is the oracle for
`(datetime.now(tz) - fromisoformat(metadata["date"])).days`: `none`
when that computation raises (the source's bare `except: pass` leaves
the boost at 0).  The float constants 0.05/0.02/0.1 and the true
divisions are exact rationals here. -/
def rerankScore (original_query : String) (daysOld : Option Int) (d : Doc) : ℚ :=
  let base_score := d.relevance_score
  let recency_boost : ℚ :=
    if !(d.date.getD "").isEmpty then
      match daysOld with
      | some days => if days < 30 then 1/20 else if days < 365 then 1/50 else 0
      | none => 0
    else 0
  let query_terms := pyWords (pyLower original_query)
  let content_lower := pyLower d.page_content
  let keyword_matches : Nat :=
    (query_terms.filter (fun t => pyInStr t content_lower)).length
  let keyword_boost : ℚ := min ((keyword_matches : ℚ) * (1/50)) (1/10)
  let content_length := pyWordCount d.page_content
  let length_boost : ℚ := max 0 (min (1/20) (((content_length : ℚ) - 50) / 1000))
  base_score + recency_boost + keyword_boost + length_boost

/-- `_rerank_results`: annotate each document with its composite score
(the source stores it in `metadata["final_score"]`) and sort by that
score descending with Python's stable `list.sort(key=..., reverse=True)`,
embedded as a stable merge sort. -/
def _rerank_results (daysOld : Doc → Option Int) (original_query : String)
    (results : List Doc) : List (Doc × ℚ) :=
  (results.map (fun d => (d, rerankScore original_query (daysOld d) d))).mergeSort
    (fun a b => decide (b.2 ≤ a.2))

/-- Month names for `strftime("%B %Y")`. -/
def monthName : Nat → String
  | 1 => "January" | 2 => "February" | 3 => "March" | 4 => "April"
  | 5 => "May" | 6 => "June" | 7 => "July" | 8 => "August"
  | 9 => "September" | 10 => "October" | 11 => "November" | 12 => "December"
  | _ => ""

/-- Digit test and value for ISO-date parsing. -/
def digitVal (c : Char) : Option Nat :=
  if c.isDigit then some (c.toNat - 48) else none

/-- `datetime.fromisoformat(s).strftime("%B %Y")`, modelled on the
`YYYY-MM-DD` form the pipeline stores in metadata: `none` when the
string is not a valid date of that shape (the caller's `except: pass`
then keeps the undated header). -/
def parseIsoMonthYear (s : String) : Option String :=
  match s.data with
  | [y1, y2, y3, y4, '-', m1, m2, '-', d1, d2] =>
    match digitVal y1, digitVal y2, digitVal y3, digitVal y4,
          digitVal m1, digitVal m2, digitVal d1, digitVal d2 with
    | some a, some b, some c, some d, some e, some f, some g, some h =>
      let year := ((a * 10 + b) * 10 + c) * 10 + d
      let month := e * 10 + f
      let day := g * 10 + h
      if 1 ≤ month && month ≤ 12 && 1 ≤ day && day ≤ 31 then
        some (monthName month ++ " " ++ toString year)
      else none
    | _, _, _, _, _, _, _, _ => none
  | _ => none

/-- One pass of the `for doc in results` loop of
`assemble_context_window`, threading `(context_parts, included_sources,
total_chars)`.  A `break` in the source returns the state immediately.
Note the budget guard tests the undated header but the appended header
may carry the `(Month Year)` suffix (retrieval.py lines 244–257). -/
def assembleGo (maxChars : Nat) :
    List Doc → List String → List String → Nat → List String × List String × Nat
  | [], parts, included, total => (parts, included, total)
  | doc :: rest, parts, included, total =>
    let source := doc.title.getD (doc.source_file.getD "Unknown")
    let headerState :=
      if source ∉ included then
        let header0 := "\n## From: " ++ source ++ "\n"
        if maxChars < total + header0.length then none
        else
          let header :=
            if !(doc.date.getD "").isEmpty then
              match parseIsoMonthYear (doc.date.getD "") with
              | some monthYear => "\n## From: " ++ source ++ " (" ++ monthYear ++ ")\n"
              | none => header0
            else header0
          some (parts ++ [header], included ++ [source], total + header.length)
      else some (parts, included, total)
    match headerState with
    | none => (parts, included, total)
    | some (parts1, included1, total1) =>
      let content := pyStrip doc.page_content
      if maxChars < total1 + content.length then
        let remaining : Int := (maxChars : Int) - (total1 : Int) - 50
        if 100 < remaining then
          (parts1 ++ [String.mk (content.data.take remaining.toNat) ++ "...\n"],
            included1, total1)
        else (parts1, included1, total1)
      else
        let parts2 := parts1 ++ [content]
        let total2 := total1 + content.length
        if total2 < maxChars && total2 + 7 < maxChars then
          assembleGo maxChars rest (parts2 ++ ["\n\n---\n\n"]) included1 (total2 + 7)
        else assembleGo maxChars rest parts2 included1 total2

/-- `assemble_context_window`.  `ESTIMATED_CHARS_PER_TOKEN = 4`; the
trailing statistics line is appended when
`total_chars + len(stats) < max_chars * 1.1`, embedded exactly as
`10 * (total + len stats) < 11 * maxChars`. -/
def assemble_context_window (results : List Doc) (max_tokens : Nat) : String :=
  if results.isEmpty then "No relevant context found."
  else
    let maxChars := max_tokens * 4
    let st := assembleGo maxChars results [] [] 0
    let context := pyStrip (String.join st.1)
    let stats := "\n\n--- Context assembled from " ++ toString st.2.1.length
      ++ " sources, " ++ toString st.2.2 ++ " characters ---"
    if 10 * (st.2.2 + stats.length) < 11 * maxChars then context ++ stats else context

/-- `expand_query`: on success the original query plus up to three
non-blank stripped lines of the model response; an exception degrades
to the original query alone. -/
def expand_query (resp : Except String String) (query : String) : List String :=
  match resp with
  | .ok response =>
    query :: (((pySplitNL response).map pyStrip).filter (fun q => !q.isEmpty)).take 3
  | .error _ => [query]

/-- `retrieve_relevant_context`.  `search q` is the per-variant
`vector_store.similarity_search` call (`.error` = it raised, which the
source's inner `try/except` turns into `continue`); `expandResp` is the
model call inside `expand_query`; `daysOld` feeds re-ranking.  The
score annotations of `_rerank_results` (the mutated
`metadata["final_score"]`) are dropped on return. -/
def retrieve_relevant_context (expandResp : Except String String)
    (search : String → Except Unit (List Doc)) (daysOld : Doc → Option Int)
    (query : String) (top_k : Nat) (expand_queries : Bool) : List Doc :=
  let queries := if expand_queries then expand_query expandResp query else [query]
  let all_results := queries.foldl
    (fun acc q => match search q with | .ok rs => acc ++ rs | .error _ => acc) []
  if all_results.isEmpty then []
  else
    let unique_results := _deduplicate_results all_results
    let reranked_results := _rerank_results daysOld query unique_results
    (reranked_results.map Prod.fst).take top_k

/-! ### Helper lemmas -/

theorem listIsPrefixB_cons_ne {p q : Char} (ps qs l : List Char) (hpq : p ≠ q)
    (h : listIsPrefixB (p :: ps) l = true) : listIsPrefixB (q :: qs) l = false := by
  cases l with
  | nil => simp [listIsPrefixB] at h
  | cons c cs =>
    simp only [listIsPrefixB, Bool.and_eq_true, beq_iff_eq] at h
    simp only [listIsPrefixB, Bool.and_eq_false_iff, beq_eq_false_iff_ne, ne_eq]
    exact Or.inl (by rw [← h.1]; exact fun e => hpq e.symm)

theorem afterFirstNewlineL_of_not_mem {l : List Char} (h : '\n' ∉ l) :
    afterFirstNewlineL l = none := by
  induction l with
  | nil => rfl
  | cons c cs ih =>
    simp only [List.mem_cons, not_or] at h
    have hc : ¬(c == '\n') = true := by
      simp only [beq_iff_eq]
      exact fun e => h.1 e.symm
    rw [afterFirstNewlineL, if_neg hc]
    exact ih h.2

theorem afterFirstNewlineL_append (pre post : List Char) (h : '\n' ∉ pre) :
    afterFirstNewlineL (pre ++ '\n' :: post) = some post := by
  induction pre with
  | nil => simp [afterFirstNewlineL]
  | cons c cs ih =>
    simp only [List.mem_cons, not_or] at h
    have hc : ¬(c == '\n') = true := by
      simp only [beq_iff_eq]
      exact fun e => h.1 e.symm
    rw [List.cons_append, afterFirstNewlineL, if_neg hc]
    exact ih h.2

theorem intercalate_single (sep x : String) : String.intercalate sep [x] = x := rfl

/-! ### Claim theorems -/

/-- C10: the inner refinement loop always returns a non-`None` draft —
the draft current at approval or at exhaustion — so the orchestrator's
fallback branch (replace a missing final draft by the initial composed
draft) never executes, for every evaluator/refiner behaviour and every
iteration cap. -/
theorem C10_loop_total_no_fallback (evalFn : Nat → Draft → EvalVerdict)
    (refineFn : Nat → Draft → String → Draft) (cap : Nat) (initial : Draft) :
    iterative_refinement_loop evalFn refineFn cap initial =
      some (refineLoopGo evalFn refineFn cap 0 initial none).1
    ∧ (orchestratorFallback (iterative_refinement_loop evalFn refineFn cap initial)
        initial).2 = false :=
  ⟨rfl, rfl⟩

/-- C4: the verdict parser approves exactly the responses whose
uppercasing starts with `APPROVED`; a response starting with `REJECTED`
is rejected with the text after the first line (stripped) as feedback
(a fixed message when there is no second line); any other prefix is
rejected with the generic unparseable message — never approved. -/
theorem C4_parse_fail_closed (response : String) :
    ((parse_evaluation_response response).approved = true ↔
      pyStartsWith (pyUpper response) "APPROVED" = true)
    ∧ (pyStartsWith (pyUpper response) "REJECTED" = true →
        (parse_evaluation_response response).approved = false
        ∧ (∀ pre post : List Char, response.data = pre ++ '\n' :: post → '\n' ∉ pre →
            (parse_evaluation_response response).feedback = pyStrip (String.mk post))
        ∧ ('\n' ∉ response.data →
            (parse_evaluation_response response).feedback = "Content needs improvement"))
    ∧ (pyStartsWith (pyUpper response) "APPROVED" = false →
       pyStartsWith (pyUpper response) "REJECTED" = false →
        parse_evaluation_response response =
          { approved := false
            feedback := "Unable to determine approval status from evaluation response" }) := by
  by_cases hA : pyStartsWith (pyUpper response) "APPROVED" = true
  · refine ⟨by simp [parse_evaluation_response, hA], fun hR => ?_, fun hA' => absurd hA (by simp [hA'])⟩
    exfalso
    have : pyStartsWith (pyUpper response) "APPROVED" = false := by
      have := listIsPrefixB_cons_ne (p := 'R') (q := 'A')
        ['E', 'J', 'E', 'C', 'T', 'E', 'D'] ['P', 'P', 'R', 'O', 'V', 'E', 'D']
        (pyUpper response).data (by decide) hR
      exact this
    rw [hA] at this
    exact absurd this (by simp)
  · have hA' : pyStartsWith (pyUpper response) "APPROVED" = false := by
      simpa using hA
    by_cases hR : pyStartsWith (pyUpper response) "REJECTED" = true
    · refine ⟨?_, fun _ => ⟨?_, fun pre post hdec hpre => ?_, fun hnl => ?_⟩,
        fun _ hR' => absurd hR (by simp [hR'])⟩
      · simp [parse_evaluation_response, hA', hR]
      · simp [parse_evaluation_response, hA', hR]
      · simp only [parse_evaluation_response, hA', hR, Bool.false_eq_true, if_false, if_true]
        rw [hdec, afterFirstNewlineL_append pre post hpre]
      · simp only [parse_evaluation_response, hA', hR, Bool.false_eq_true, if_false, if_true]
        rw [afterFirstNewlineL_of_not_mem hnl]
        decide
    · have hR' : pyStartsWith (pyUpper response) "REJECTED" = false := by
        simpa using hR
      refine ⟨by simp [parse_evaluation_response, hA', hR'], fun h => absurd h (by simp [hR']),
        fun _ _ => by simp [parse_evaluation_response, hA', hR']⟩

/-- Witness for `C4_parse_fail_closed` at the concrete response
`"REJECTED\nfix the intro"`. -/
theorem C4_parse_fail_closed_witness :
    pyStartsWith (pyUpper "REJECTED\nfix the intro") "REJECTED" = true
    ∧ (parse_evaluation_response "REJECTED\nfix the intro").approved = false
    ∧ (parse_evaluation_response "REJECTED\nfix the intro").feedback =
        pyStrip (String.mk "fix the intro".data) := by
  refine ⟨by decide, ((C4_parse_fail_closed "REJECTED\nfix the intro").2.1 (by decide)).1, ?_⟩
  exact ((C4_parse_fail_closed "REJECTED\nfix the intro").2.1 (by decide)).2.1
    "REJECTED".data "fix the intro".data (by decide) (by decide)

/-- A body that passes the structure and markdown checks: one `#`
heading, two `##` sections, and more than 100 whitespace-separated
tokens. -/
def c5Content : String :=
  "# Title\n\n## Alpha\n\n## Beta\n\n" ++ String.intercalate " " (List.replicate 120 "word")

/-- A draft whose stored `word_count` field (120) lies inside the
100–200 bound. -/
def c5DraftA : Draft :=
  { content := c5Content, word_count := 120, topic := "t", iteration := 1 }

/-- The same content with a different stored `word_count` field (0). -/
def c5DraftB : Draft :=
  { content := c5Content, word_count := 0, topic := "t", iteration := 1 }

/-- A spec requiring 100–200 words. -/
def c5Spec : GenerationSpec := { topic := "t", min_words := 100, max_words := 200 }

set_option maxRecDepth 40000 in
/-- C5 counterexample: two drafts with identical content but different
stored `word_count` fields get different pass/fail decisions from
`_perform_basic_validation`, because the word-count check reads
`draft.get('word_count', 0)` rather than recomputing from content.
This refutes "same content + same bounds ⇒ same pass/fail decision
regardless of any other draft field (including a separately stored
word_count)". -/
theorem C5_counterexample :
    c5DraftA.content = c5DraftB.content
    ∧ (perform_basic_validation c5DraftA c5Spec).passed = true
    ∧ (perform_basic_validation c5DraftB c5Spec).passed = false := by
  refine ⟨rfl, ?_, ?_⟩ <;> decide

/-- C5 amended: mechanical validation is a pure function of the draft's
content and its stored `word_count` field together with the spec's word
bounds — drafts agreeing on those two fields get the same validation
result (decision and feedback), regardless of every other draft field
and of call order. -/
theorem C5_amended (d1 d2 : Draft) (spec : GenerationSpec)
    (hc : d1.content = d2.content) (hw : d1.word_count = d2.word_count) :
    perform_basic_validation d1 spec = perform_basic_validation d2 spec := by
  unfold perform_basic_validation
  rw [hc, hw]

/-- Witness for `C5_amended`: drafts differing in topic, iteration and
error field but agreeing on content and word count validate alike. -/
theorem C5_amended_witness :
    (Draft.mk "# A" 7 "t1" 1 none).content = (Draft.mk "# A" 7 "t2" 9 (some "e")).content
    ∧ perform_basic_validation (Draft.mk "# A" 7 "t1" 1 none) c5Spec =
        perform_basic_validation (Draft.mk "# A" 7 "t2" 9 (some "e")) c5Spec :=
  ⟨rfl, C5_amended (Draft.mk "# A" 7 "t1" 1 none) (Draft.mk "# A" 7 "t2" 9 (some "e"))
    c5Spec rfl rfl⟩

/-- C3: when any mechanical check fails, `evaluate_draft` returns a
rejection without calling the model (second component `false`), and its
feedback is exactly the `"; "`-join of the messages of the failed
checks (word count, then structure, then markdown); in particular a
draft failing only the word-count check gets exactly the message naming
that range violation. -/
theorem C3_mechanical_short_circuit (draft : Draft) (spec : GenerationSpec)
    (llm : Except String String)
    (h : (perform_basic_validation draft spec).passed = false) :
    evaluate_draft llm draft spec =
      ({ approved := false, feedback := (perform_basic_validation draft spec).feedback },
        false)
    ∧ (perform_basic_validation draft spec).feedback = String.intercalate "; "
        ((if (perform_basic_validation draft spec).word_count_ok then [] else
            ["Word count (" ++ toString draft.word_count ++ ") not in range "
              ++ toString spec.min_words ++ "-" ++ toString spec.max_words])
          ++ (if (perform_basic_validation draft spec).structure_ok then [] else
            ["Missing proper introduction, body, or conclusion sections"])
          ++ (if (perform_basic_validation draft spec).markdown_ok then [] else
            ["Markdown formatting issues detected"]))
    ∧ ((perform_basic_validation draft spec).structure_ok = true →
       (perform_basic_validation draft spec).markdown_ok = true →
       (perform_basic_validation draft spec).word_count_ok = false →
        (perform_basic_validation draft spec).feedback =
          "Word count (" ++ toString draft.word_count ++ ") not in range "
            ++ toString spec.min_words ++ "-" ++ toString spec.max_words) := by
  refine ⟨?_, ?_, ?_⟩
  · simp [evaluate_draft, h]
  · unfold perform_basic_validation at h ⊢
    cases hcs : check_structure draft.content <;>
      cases hcw : check_word_count draft.word_count spec <;>
        cases hcm : check_markdown_formatting draft.content <;>
          simp_all
  · intro h1 h2 h3
    unfold perform_basic_validation at h1 h2 h3 ⊢
    cases hcs : check_structure draft.content <;>
      cases hcw : check_word_count draft.word_count spec <;>
        cases hcm : check_markdown_formatting draft.content <;>
          simp_all [intercalate_single]

set_option maxRecDepth 40000 in
/-- Witness for `C3_mechanical_short_circuit`: a structurally sound
120-word draft against a 500–1000-word spec fails only the word-count
check, skips the model call, and reports exactly the range violation. -/
theorem C3_mechanical_short_circuit_witness :
    (perform_basic_validation c5DraftA { topic := "t", min_words := 500, max_words := 1000 }).passed = false
    ∧ evaluate_draft (Except.ok "APPROVED") c5DraftA
        { topic := "t", min_words := 500, max_words := 1000 } =
      ({ approved := false,
         feedback := (perform_basic_validation c5DraftA
           { topic := "t", min_words := 500, max_words := 1000 }).feedback }, false)
    ∧ (perform_basic_validation c5DraftA
        { topic := "t", min_words := 500, max_words := 1000 }).feedback =
      "Word count (120) not in range 500-1000" := by
  have h : (perform_basic_validation c5DraftA
      { topic := "t", min_words := 500, max_words := 1000 }).passed = false := by decide
  have main := C3_mechanical_short_circuit c5DraftA
    { topic := "t", min_words := 500, max_words := 1000 } (Except.ok "APPROVED") h
  refine ⟨h, main.1, ?_⟩
  have := main.2.2 (by decide) (by decide) (by decide)
  simpa using this

/-- A non-empty feedback string is truthy. -/
theorem fbTruthy_some {s : String} (h : s ≠ "") : fbTruthy (some s) = true := by
  simp only [fbTruthy]
  cases he : s.isEmpty
  · rfl
  · exact absurd ((String.isEmpty_iff s).mp he) h

/-- The refinement loop makes at most `remaining` further evaluator
calls beyond index `i`. -/
theorem refineLoopGo_evals_le (evalFn : Nat → Draft → EvalVerdict)
    (refineFn : Nat → Draft → String → Draft) :
    ∀ (remaining i : Nat) (draft : Draft) (fb : Option String),
      (refineLoopGo evalFn refineFn remaining i draft fb).2 ≤ i + remaining := by
  intro remaining
  induction remaining with
  | zero => intro i draft fb; simp [refineLoopGo]
  | succ r ih =>
    intro i draft fb
    simp only [refineLoopGo]
    generalize (if fbTruthy fb && decide (0 < i) then refineFn i draft (fb.getD "") else draft) = draft2
    split
    · dsimp only
      omega
    · have := ih (i + 1) draft2 (some (evalFn i draft2).feedback)
      omega

/-- Under perpetual rejection with non-empty feedback and an
increment-by-one refiner, the loop runs its fuel out and the returned
draft's iteration advances once per remaining pass. -/
theorem refineLoopGo_exhaust_iteration (evalFn : Nat → Draft → EvalVerdict)
    (refineFn : Nat → Draft → String → Draft)
    (hreject : ∀ n d, (evalFn n d).approved = false)
    (hfb : ∀ n d, (evalFn n d).feedback ≠ "")
    (hrefine : ∀ n d s, (refineFn n d s).iteration = d.iteration + 1) :
    ∀ (remaining i : Nat) (draft : Draft) (fb : Option String), 1 ≤ i →
      draft.iteration = (i : Int) → fbTruthy fb = true →
      ((refineLoopGo evalFn refineFn remaining i draft fb).1).iteration =
        ((i + remaining : Nat) : Int) := by
  intro remaining
  induction remaining with
  | zero => intro i draft fb _ hit _; simpa [refineLoopGo] using hit
  | succ r ih =>
    intro i draft fb h1 hit hfbt
    have hcond : (fbTruthy fb && decide (0 < i)) = true := by
      rw [hfbt]; simpa using h1
    have hdr : (refineFn i draft (fb.getD "")).iteration = (i : Int) + 1 := by
      rw [hrefine, hit]
    simp only [refineLoopGo, hcond, if_true, hreject, Bool.false_eq_true, if_false]
    have := ih (i + 1) (refineFn i draft (fb.getD ""))
      (some (evalFn i (refineFn i draft (fb.getD ""))).feedback)
      (by omega) (by rw [hdr]; push_cast; ring)
      (fbTruthy_some (hfb i (refineFn i draft (fb.getD ""))))
    rw [this]
    congr 1
    omega

/-- Constantly rejecting evaluator whose rejection carries an *empty*
feedback string. -/
def c2EvalFn : Nat → Draft → EvalVerdict := fun _ _ => { approved := false, feedback := "" }

/-- A refiner that increments the iteration counter by exactly one, as
a successful `refine_draft` does. -/
def c2RefineFn : Nat → Draft → String → Draft :=
  fun _ d _ => { d with iteration := d.iteration + 1 }

/-- A composed draft: iteration starts at 1. -/
def c2Init : Draft := { content := "# c", word_count := 10, topic := "t", iteration := 1 }

/-- C2 counterexample: with the default cap of 5 and perpetual
rejection, the claim says the exhausted loop returns a draft with
`iteration == 5`; but when the rejections carry empty feedback the loop
never refines (`if feedback and iteration > 0` is falsy), so it returns
the initial draft with `iteration == 1`. -/
theorem C2_counterexample :
    iterative_refinement_loop c2EvalFn c2RefineFn 5 c2Init = some c2Init
    ∧ c2Init.iteration = 1
    ∧ ((1 : Int) = 5 → False) := by
  refine ⟨by decide, rfl, by omega⟩

/-- C2 amended: for every cap and every evaluator/refiner behaviour the
loop performs at most `cap` evaluator calls; and — provided the cap is
at least 1, composition started the iteration count at 1, every refine
pass increments it by exactly one, and every rejection carries
*non-empty* feedback — exhaustion returns a draft whose `iteration`
equals the cap.  (With an empty rejection feedback the refine step is
skipped and the count stalls, as `C2_counterexample` shows.) -/
theorem C2_amended (evalFn : Nat → Draft → EvalVerdict)
    (refineFn : Nat → Draft → String → Draft) (cap : Nat) (initial : Draft)
    (hcap : 1 ≤ cap)
    (hinit : initial.iteration = 1)
    (hreject : ∀ n d, (evalFn n d).approved = false)
    (hfb : ∀ n d, (evalFn n d).feedback ≠ "")
    (hrefine : ∀ n d s, (refineFn n d s).iteration = d.iteration + 1) :
    (∀ (eF : Nat → Draft → EvalVerdict) (rF : Nat → Draft → String → Draft)
        (c : Nat) (init : Draft) (fb : Option String),
        (refineLoopGo eF rF c 0 init fb).2 ≤ c)
    ∧ (∀ (resp topic : String), (compose_draft (Except.ok resp) topic).iteration = 1)
    ∧ (∀ (resp : String) (d : Draft) (fb : Option String),
        (refine_draft (Except.ok resp) d fb).iteration = d.iteration + 1)
    ∧ ∃ d, iterative_refinement_loop evalFn refineFn cap initial = some d
        ∧ d.iteration = (cap : Int) := by
  refine ⟨?_, fun _ _ => rfl, fun _ _ _ => rfl, ?_⟩
  · intro eF rF c init fb
    simpa using refineLoopGo_evals_le eF rF c 0 init fb
  · refine ⟨(refineLoopGo evalFn refineFn cap 0 initial none).1, rfl, ?_⟩
    obtain ⟨r, hr⟩ : ∃ r, cap = r + 1 := ⟨cap - 1, by omega⟩
    subst hr
    simp only [refineLoopGo, fbTruthy, Bool.false_and, if_false, hreject,
      Bool.false_eq_true]
    rw [refineLoopGo_exhaust_iteration evalFn refineFn hreject hfb hrefine r 1 initial
      (some (evalFn 0 initial).feedback) (by omega) (by simpa using hinit)
      (fbTruthy_some (hfb 0 initial))]
    congr 1
    omega

/-- Constantly rejecting evaluator with non-empty feedback. -/
def c2WEval : Nat → Draft → EvalVerdict :=
  fun _ _ => { approved := false, feedback := "needs work" }

/-- Witness for `C2_amended`: cap 5, perpetual rejection with non-empty
feedback, increment-by-one refiner — the exhausted loop returns a draft
with iteration 5 after at most 5 evaluator calls. -/
theorem C2_amended_witness :
    (refineLoopGo c2WEval c2RefineFn 5 0 c2Init none).2 ≤ 5
    ∧ ∃ d, iterative_refinement_loop c2WEval c2RefineFn 5 c2Init = some d
        ∧ d.iteration = (5 : Int) := by
  have h := C2_amended c2WEval c2RefineFn 5 c2Init (by omega) rfl
    (fun _ _ => rfl)
    (fun _ _ => (by decide : ¬("needs work" = ""))) (fun _ _ _ => rfl)
  exact ⟨h.1 c2WEval c2RefineFn 5 c2Init none, h.2.2.2⟩

/-- Spec data requesting a short post (600–1000 words). -/
def c1SpecData : SpecData := { topic := "t", length := some "short" }

/-- The draft the exhausted workflow returns: the 5th-iteration draft
produced by the last refine pass. -/
def c1Final : Draft :=
  { content := "# T\n\nShort body.", word_count := 4, topic := "t", iteration := 5 }

set_option maxRecDepth 200000 in
/-- C1: after `max_iterations = 5` refine/evaluate cycles with
perpetual rejection (every draft fails the mechanical word-count and
structure checks), `generate_blog_post` returns the last produced draft
as if it were final — but the caller-visible `approval_status` is the
string `"approved"`, not a false/unapproved flag, even though no
evaluation ever approved the draft.  This documents the divergence for
the code-bug verdict on the claim that the result "reports the true
(false) approval status". -/
theorem C1_exhaustion_reports_approved :
    generate_blog_post (some "ctx") (Except.ok "# T\n\nInitial body.")
        (fun _ => Except.ok "irrelevant") (fun _ => Except.ok "# T\n\nShort body.")
        (Except.ok "posts/t.md") 5 "t" c1SpecData =
      { success := true
        final_content := some c1Final
        file_path := some "posts/t.md"
        iterations := 5
        approval_status := "approved"
        error := none }
    ∧ (c1Final.content = "" → False)
    ∧ (evaluate_draft (Except.ok "irrelevant") c1Final
        (buildGenerationSpec c1SpecData)).1.approved = false := by
  refine ⟨by decide, by decide, by decide⟩

/-- Deduplication only ever drops elements, in order. -/
theorem dedupGo_sublist (seen : List String) (l : List Doc) :
    (dedupGo seen l).Sublist l := by
  induction l generalizing seen with
  | nil => simp [dedupGo]
  | cons d rest ih =>
    rw [dedupGo]
    split
    · exact (ih seen).trans (List.sublist_cons_self d rest)
    · exact (ih (dedupKey d :: seen)).cons₂ d

/-- Membership in the deduplicated list: exactly the elements whose key
is unseen and which are the first occurrence of their key. -/
theorem dedupGo_mem (l : List Doc) :
    ∀ (seen : List String) (x : Doc), x ∈ dedupGo seen l ↔
      dedupKey x ∉ seen ∧ x ∈ l
        ∧ l.find? (fun y => dedupKey y == dedupKey x) = some x := by
  induction l with
  | nil => intro seen x; simp [dedupGo]
  | cons d rest ih =>
    intro seen x
    rw [dedupGo]
    by_cases hk : dedupKey d = dedupKey x
    · have hfind : (d :: rest).find? (fun y => dedupKey y == dedupKey x) = some d :=
        List.find?_cons_of_pos _ (by simp [hk])
      split
      · next hmem =>
        rw [ih seen x]
        constructor
        · rintro ⟨hns, hxr, hfr⟩
          exact absurd (hk ▸ hmem) hns
        · rintro ⟨hns, hxl, hf⟩
          rw [hfind] at hf
          injection hf with hf
          exact absurd (hf ▸ hk ▸ hmem) (hf ▸ hns)
      · next hmem =>
        simp only [List.mem_cons]
        constructor
        · rintro (rfl | hx)
          · exact ⟨hk ▸ hmem, Or.inl rfl, hfind⟩
          · rw [ih (dedupKey d :: seen) x] at hx
            exact absurd (List.mem_cons.mpr (Or.inl hk.symm)) hx.1
        · rintro ⟨hns, _, hf⟩
          rw [hfind] at hf
          injection hf with hf
          exact Or.inl hf.symm
    · have hfind : (d :: rest).find? (fun y => dedupKey y == dedupKey x) =
          rest.find? (fun y => dedupKey y == dedupKey x) := by
        rw [List.find?_cons_of_neg _ (by simp [hk])]
      have hxd : x ≠ d := fun h => hk (h ▸ rfl)
      split
      · next hmem =>
        rw [ih seen x, hfind]
        simp only [List.mem_cons]
        constructor
        · rintro ⟨hns, hxr, hfr⟩
          exact ⟨hns, Or.inr hxr, hfr⟩
        · rintro ⟨hns, hxl, hf⟩
          rcases hxl with rfl | hxr
          · exact absurd rfl hxd
          · exact ⟨hns, hxr, hf⟩
      · next hmem =>
        simp only [List.mem_cons]
        constructor
        · rintro (rfl | hx)
          · exact absurd rfl hxd
          · rw [ih (dedupKey d :: seen) x] at hx
            obtain ⟨hns, hxr, hfr⟩ := hx
            simp only [List.mem_cons, not_or] at hns
            exact ⟨hns.2, Or.inr hxr, hfind ▸ hfr⟩
        · rintro ⟨hns, hxl, hf⟩
          rcases hxl with rfl | hxr
          · exact absurd rfl hxd
          · right
            rw [ih (dedupKey d :: seen) x]
            refine ⟨?_, hxr, hfind ▸ hf⟩
            simp only [List.mem_cons, not_or]
            exact ⟨fun h => hk h.symm, hns⟩

/-- The keys of the deduplicated list are distinct and disjoint from
the seen set. -/
theorem dedupGo_keys_nodup (l : List Doc) :
    ∀ seen : List String, ((dedupGo seen l).map dedupKey).Nodup
      ∧ ∀ x ∈ dedupGo seen l, dedupKey x ∉ seen := by
  induction l with
  | nil => intro seen; simp [dedupGo]
  | cons d rest ih =>
    intro seen
    rw [dedupGo]
    split
    · exact ih seen
    · next hmem =>
      obtain ⟨hnd, hdis⟩ := ih (dedupKey d :: seen)
      refine ⟨?_, ?_⟩
      · simp only [List.map_cons, List.nodup_cons]
        refine ⟨?_, hnd⟩
        intro hmem2
        obtain ⟨y, hy, hky⟩ := List.mem_map.mp hmem2
        exact (hdis y hy) (by simp [hky])
      · intro x hx
        rcases List.mem_cons.mp hx with rfl | hx
        · exact hmem
        · have := hdis x hx
          simp only [List.mem_cons, not_or] at this
          exact this.2

/-- Deduplicating a list whose keys are already distinct and unseen is
the identity. -/
theorem dedupGo_eq_self (m : List Doc) :
    ∀ seen : List String, (m.map dedupKey).Nodup →
      (∀ x ∈ m, dedupKey x ∉ seen) → dedupGo seen m = m := by
  induction m with
  | nil => intro seen _ _; rfl
  | cons d rest ih =>
    intro seen hnd hdis
    rw [dedupGo]
    rw [if_neg (hdis d (List.mem_cons_self d rest))]
    congr 1
    refine ih (dedupKey d :: seen) (by simpa using hnd.of_cons) ?_
    intro x hx
    simp only [List.map_cons, List.nodup_cons] at hnd
    simp only [List.mem_cons, not_or]
    exact ⟨fun h => hnd.1 (h ▸ List.mem_map_of_mem dedupKey hx), hdis x (List.mem_cons_of_mem d hx)⟩

/-- C8: `_deduplicate_results` keeps exactly the first occurrence of
each group of documents sharing a 200-character content prefix,
preserves input order (the output is a sublist of the input), and is
idempotent. -/
theorem C8_dedup_first_occurrence_idempotent (l : List Doc) :
    (_deduplicate_results l).Sublist l
    ∧ (∀ x : Doc, x ∈ _deduplicate_results l ↔
        x ∈ l ∧ l.find? (fun y => dedupKey y == dedupKey x) = some x)
    ∧ _deduplicate_results (_deduplicate_results l) = _deduplicate_results l := by
  refine ⟨dedupGo_sublist [] l, ?_, ?_⟩
  · intro x
    rw [_deduplicate_results, dedupGo_mem l [] x]
    simp
  · have h := dedupGo_keys_nodup l
    exact dedupGo_eq_self (_deduplicate_results l) [] ((h []).1) (by simp)

/-- The descending comparison used by the re-rank sort is transitive. -/
theorem rerankLE_trans : ∀ a b c : Doc × ℚ,
    (fun a b : Doc × ℚ => decide (b.2 ≤ a.2)) a b →
    (fun a b : Doc × ℚ => decide (b.2 ≤ a.2)) b c →
    (fun a b : Doc × ℚ => decide (b.2 ≤ a.2)) a c := by
  intro a b c h1 h2
  simp only [decide_eq_true_eq] at *
  exact le_trans h2 h1

/-- The descending comparison used by the re-rank sort is total. -/
theorem rerankLE_total : ∀ a b : Doc × ℚ,
    ((fun a b : Doc × ℚ => decide (b.2 ≤ a.2)) a b
      || (fun a b : Doc × ℚ => decide (b.2 ≤ a.2)) b a) := by
  intro a b
  simp only [Bool.or_eq_true, decide_eq_true_eq]
  exact le_total b.2 a.2

/-- C9: `_rerank_results` annotates every document with the composite
score `base + recency + keyword + length` whose bonuses are bounded by
0.05, 0.1 and 0.05 respectively (all non-negative), and sorts the
annotated list in descending score order with a stable sort: it is a
permutation of the annotated input, pairwise descending, and any two
equal-scored entries appearing in order in the input still appear in
that order in the output. -/
theorem C9_rerank_stable_descending (daysOld : Doc → Option Int) (q : String)
    (l : List Doc) :
    (_rerank_results daysOld q l).Perm
        (l.map (fun d => (d, rerankScore q (daysOld d) d)))
    ∧ (_rerank_results daysOld q l).Pairwise (fun a b => b.2 ≤ a.2)
    ∧ (∀ a b : Doc × ℚ, a.2 = b.2 →
        List.Sublist [a, b] (l.map (fun d => (d, rerankScore q (daysOld d) d))) →
        List.Sublist [a, b] (_rerank_results daysOld q l))
    ∧ (∀ d : Doc, ∃ r k lb : ℚ,
        rerankScore q (daysOld d) d = d.relevance_score + r + k + lb
        ∧ 0 ≤ r ∧ r ≤ 1/20 ∧ 0 ≤ k ∧ k ≤ 1/10 ∧ 0 ≤ lb ∧ lb ≤ 1/20) := by
  refine ⟨List.mergeSort_perm _ _, ?_, ?_, ?_⟩
  · have h := List.sorted_mergeSort rerankLE_trans rerankLE_total
      (l.map (fun d => (d, rerankScore q (daysOld d) d)))
    exact h.imp (fun hab => by simpa using hab)
  · intro a b heq hsub
    exact List.pair_sublist_mergeSort rerankLE_trans rerankLE_total
      (by simp [heq]) hsub
  · intro d
    unfold rerankScore
    refine ⟨_, _, _, rfl, ?_, ?_, ?_, ?_, ?_, ?_⟩
    · split
      · split
        · split <;> norm_num
          split <;> norm_num
        · norm_num
      · norm_num
    · split
      · split
        · split
          · norm_num
          · split <;> norm_num
        · norm_num
      · norm_num
    · refine le_min (by positivity) (by norm_num)
    · exact min_le_right _ _
    · exact le_max_left 0 _
    · exact max_le (by norm_num) (min_le_left _ _)

/-- A document for the stability witness. -/
def c9Doc1 : Doc := { page_content := "alpha beta", relevance_score := 1/2 }

/-- Witness for `C9_rerank_stable_descending`: two equal-scored entries
appearing in order in the annotated input keep their order in the
sorted output. -/
theorem C9_rerank_stable_descending_witness :
    List.Sublist
      [(c9Doc1, rerankScore "q" none c9Doc1), (c9Doc1, rerankScore "q" none c9Doc1)]
      (_rerank_results (fun _ => none) "q" [c9Doc1, c9Doc1]) :=
  (C9_rerank_stable_descending (fun _ => none) "q" [c9Doc1, c9Doc1]).2.2.1
    (c9Doc1, rerankScore "q" none c9Doc1) (c9Doc1, rerankScore "q" none c9Doc1) rfl
    (List.Sublist.refl _)

/-- Accumulating per-variant search results leaves the accumulator
unchanged when every variant either raises or matches nothing. -/
theorem foldl_search_acc (search : String → Except Unit (List Doc))
    (h : ∀ v, search v = Except.error () ∨ search v = Except.ok []) :
    ∀ (qs : List String) (acc : List Doc),
      qs.foldl (fun acc q => match search q with
        | .ok rs => acc ++ rs | .error _ => acc) acc = acc := by
  intro qs
  induction qs with
  | nil => intro acc; rfl
  | cons q rest ih =>
    intro acc
    rcases h q with hq | hq <;> simp only [List.foldl_cons, hq] <;>
      simpa using ih acc

/-- C7: the retrieval pipeline is total over every oracle behaviour —
an expansion failure degrades to the single original query, variants
whose search raises or matches nothing contribute nothing, a run in
which every variant raises (or matches nothing) returns the empty list,
and the context window assembled from an empty result list is the fixed
string stating that no context was found. -/
theorem C7_retrieval_error_policy (search : String → Except Unit (List Doc))
    (daysOld : Doc → Option Int) (q : String) (k : Nat) (err : String) :
    (retrieve_relevant_context (Except.error err) search daysOld q k true =
      retrieve_relevant_context (Except.error err) search daysOld q k false)
    ∧ (∀ expandResp : Except String String, (∀ v, search v = Except.error ()) →
        retrieve_relevant_context expandResp search daysOld q k true = [])
    ∧ (∀ expandResp : Except String String, (∀ v, search v = Except.ok []) →
        retrieve_relevant_context expandResp search daysOld q k true = [])
    ∧ (∀ t : Nat, assemble_context_window [] t = "No relevant context found.") := by
  refine ⟨rfl, ?_, ?_, fun t => rfl⟩
  · intro expandResp hfail
    simp only [retrieve_relevant_context]
    rw [foldl_search_acc search (fun v => Or.inl (hfail v))]
    rfl
  · intro expandResp hempty
    simp only [retrieve_relevant_context]
    rw [foldl_search_acc search (fun v => Or.inr (hempty v))]
    rfl

/-- A search oracle that always raises. -/
def c7FailSearch : String → Except Unit (List Doc) := fun _ => Except.error ()

/-- A search oracle that always matches nothing. -/
def c7EmptySearch : String → Except Unit (List Doc) := fun _ => Except.ok []

/-- Witness for `C7_retrieval_error_policy` at concrete oracles. -/
theorem C7_retrieval_error_policy_witness :
    retrieve_relevant_context (Except.ok "v1\nv2") c7FailSearch (fun _ => none) "q" 5 true = []
    ∧ retrieve_relevant_context (Except.ok "v1\nv2") c7EmptySearch (fun _ => none) "q" 5 true = []
    ∧ assemble_context_window [] 100 = "No relevant context found." :=
  ⟨(C7_retrieval_error_policy c7FailSearch (fun _ => none) "q" 5 "e").2.1
      (Except.ok "v1\nv2") (fun _ => rfl),
    (C7_retrieval_error_policy c7EmptySearch (fun _ => none) "q" 5 "e").2.2.1
      (Except.ok "v1\nv2") (fun _ => rfl),
    (C7_retrieval_error_policy c7FailSearch (fun _ => none) "q" 5 "e").2.2.2 100⟩

/-- Total length of the accumulated context parts. -/
def sumLen (parts : List String) : Nat := (parts.map String.length).sum

theorem sumLen_append_single (parts : List String) (x : String) :
    sumLen (parts ++ [x]) = sumLen parts + x.length := by
  simp [sumLen]

theorem join_length (parts : List String) :
    (String.join parts).length = sumLen parts := by
  simp only [sumLen]
  rw [show (String.join parts).length = (String.join parts).data.length from rfl]
  rw [String.data_join, List.length_flatten, List.map_map]
  rfl

theorem pyStrip_length_le (s : String) : (pyStrip s).length ≤ s.length := by
  show (pyStripL s.data).length ≤ s.data.length
  unfold pyStripL pyLStripL
  calc (((s.data.dropWhile isPySpace).reverse.dropWhile isPySpace).reverse).length
      = ((s.data.dropWhile isPySpace).reverse.dropWhile isPySpace).length :=
        List.length_reverse _
    _ ≤ (s.data.dropWhile isPySpace).reverse.length :=
        (List.dropWhile_sublist _).length_le
    _ = (s.data.dropWhile isPySpace).length := List.length_reverse _
    _ ≤ s.data.length := (List.dropWhile_sublist _).length_le

theorem assembleGo_bound (maxChars : Nat) :
    ∀ (docs : List Doc) (parts included : List String) (total : Nat),
      (∀ d ∈ docs, d.date = none) →
      sumLen parts = total → total ≤ maxChars →
      sumLen (assembleGo maxChars docs parts included total).1 ≤ maxChars := by
  intro docs
  induction docs with
  | nil =>
    intro parts included total _ hsum htot
    simpa [assembleGo, hsum] using htot
  | cons doc rest ih =>
    intro parts included total hdates hsum htot
    have hdoc : doc.date = none := hdates doc (List.mem_cons_self _ _)
    have hrest : ∀ d ∈ rest, d.date = none := fun d hd => hdates d (List.mem_cons_of_mem _ hd)
    have hE : (!String.isEmpty "") = false := rfl
    simp only [assembleGo, hdoc, Option.getD_none, hE, Bool.false_eq_true, if_false]
    by_cases hmem : doc.title.getD (doc.source_file.getD "Unknown") ∈ included
    · simp only [hmem, not_true_eq_false, if_false]
      by_cases hfit : maxChars < total + (pyStrip doc.page_content).length
      · rw [if_pos hfit]
        by_cases hrem : (100 : Int) < (maxChars : Int) - (total : Int) - 50
        · rw [if_pos hrem]
          rw [sumLen_append_single, String.length_append]
          have htake : (String.mk (List.take ((maxChars : Int) - (total : Int) - 50).toNat
              (pyStrip doc.page_content).data)).length ≤
              ((maxChars : Int) - (total : Int) - 50).toNat := by
            simpa using List.length_take_le _ _
          have h4 : ("...\n" : String).length = 4 := rfl
          omega
        · rw [if_neg hrem]
          simpa [hsum] using htot
      · rw [if_neg hfit]
        split
        · next hsep =>
          simp only [Bool.and_eq_true, decide_eq_true_eq] at hsep
          refine ih _ _ _ hrest ?_ (by omega)
          rw [sumLen_append_single, sumLen_append_single, hsum]
          rfl
        · next hsep =>
          refine ih _ _ _ hrest ?_ (by omega)
          rw [sumLen_append_single, hsum]
    · simp only [hmem, not_false_eq_true, if_true]
      by_cases hg : maxChars < total +
          ("\n## From: " ++ doc.title.getD (doc.source_file.getD "Unknown") ++ "\n").length
      · rw [if_pos hg]
        simpa [hsum] using htot
      · rw [if_neg hg]
        dsimp only
        have hsum1 : sumLen (parts ++
            ["\n## From: " ++ doc.title.getD (doc.source_file.getD "Unknown") ++ "\n"]) =
            total + ("\n## From: " ++ doc.title.getD (doc.source_file.getD "Unknown") ++ "\n").length := by
          rw [sumLen_append_single, hsum]
        have htot1 : total +
            ("\n## From: " ++ doc.title.getD (doc.source_file.getD "Unknown") ++ "\n").length ≤
            maxChars := by omega
        by_cases hfit : maxChars <
            (total + ("\n## From: " ++ doc.title.getD (doc.source_file.getD "Unknown") ++ "\n").length)
            + (pyStrip doc.page_content).length
        · rw [if_pos hfit]
          by_cases hrem : (100 : Int) < (maxChars : Int) -
              ((total + ("\n## From: " ++ doc.title.getD (doc.source_file.getD "Unknown") ++ "\n").length : Nat) : Int) - 50
          · rw [if_pos hrem]
            rw [sumLen_append_single, String.length_append]
            have htake : (String.mk (List.take ((maxChars : Int) -
                ((total + ("\n## From: " ++ doc.title.getD (doc.source_file.getD "Unknown") ++ "\n").length : Nat) : Int) - 50).toNat
                (pyStrip doc.page_content).data)).length ≤
                ((maxChars : Int) -
                ((total + ("\n## From: " ++ doc.title.getD (doc.source_file.getD "Unknown") ++ "\n").length : Nat) : Int) - 50).toNat := by
              simpa using List.length_take_le _ _
            have h4 : ("...\n" : String).length = 4 := rfl
            omega
          · rw [if_neg hrem]
            simpa [hsum1] using htot1
        · rw [if_neg hfit]
          split
          · next hsep =>
            simp only [Bool.and_eq_true, decide_eq_true_eq] at hsep
            refine ih _ _ _ hrest ?_ (by omega)
            rw [sumLen_append_single, sumLen_append_single, hsum1]
            rfl
          · next hsep =>
            refine ih _ _ _ hrest ?_ (by omega)
            rw [sumLen_append_single, hsum1]

/-- C6 amended: for a non-empty result list of documents without date
metadata, the assembled context window is a core string of at most
`max_tokens * 4` characters, optionally followed by exactly one
trailing statistics line (appended only when the tracked total passes
the 110%-of-budget test).  Documents with a parseable date can overflow
the budget through the dated header, and an empty result list returns
the fixed no-context string — see the counterexample. -/
theorem C6_amended (results : List Doc) (max_tokens : Nat)
    (hne : results ≠ []) (hdates : ∀ d ∈ results, d.date = none) :
    ∃ core suffix : String,
      assemble_context_window results max_tokens = core ++ suffix
      ∧ core.length ≤ max_tokens * 4
      ∧ (suffix = "" ∨ ∃ ns tc : Nat,
          suffix = "\n\n--- Context assembled from " ++ toString ns
            ++ " sources, " ++ toString tc ++ " characters ---") := by
  have hbound := assembleGo_bound (max_tokens * 4) results [] [] 0 hdates rfl (Nat.zero_le _)
  have hcore : (pyStrip (String.join
      (assembleGo (max_tokens * 4) results [] [] 0).1)).length ≤ max_tokens * 4 :=
    calc (pyStrip (String.join (assembleGo (max_tokens * 4) results [] [] 0).1)).length
        ≤ (String.join (assembleGo (max_tokens * 4) results [] [] 0).1).length :=
          pyStrip_length_le _
      _ = sumLen (assembleGo (max_tokens * 4) results [] [] 0).1 := join_length _
      _ ≤ max_tokens * 4 := hbound
  have hne' : results.isEmpty = false := by
    cases results with
    | nil => exact absurd rfl hne
    | cons _ _ => rfl
  unfold assemble_context_window
  rw [hne']
  simp only [Bool.false_eq_true, if_false]
  split
  · exact ⟨pyStrip (String.join (assembleGo (max_tokens * 4) results [] [] 0).1), _,
      rfl, hcore, Or.inr ⟨(assembleGo (max_tokens * 4) results [] [] 0).2.1.length,
        (assembleGo (max_tokens * 4) results [] [] 0).2.2, rfl⟩⟩
  · exact ⟨pyStrip (String.join (assembleGo (max_tokens * 4) results [] [] 0).1), "",
      (String.append_empty _).symm, hcore, Or.inl rfl⟩

/-- A dated document whose undated header exactly fills a 16-character
budget; the appended header then carries the `(September 2024)` suffix. -/
def c6Doc : Doc := { page_content := "", title := some "SSSSS", date := some "2024-09-15" }

/-- C6 counterexample: with `max_tokens = 4` (budget 16 characters) the
assembled window is 31 characters with no statistics suffix — the
budget check at retrieval.py line 245 measures the undated header, but
line 253 appends the longer dated header, so the output exceeds
`max_tokens * 4` even before any statistics line. -/
theorem C6_counterexample :
    assemble_context_window [c6Doc] 4 = "## From: SSSSS (September 2024)"
    ∧ 4 * 4 < (assemble_context_window [c6Doc] 4).length := ⟨by decide, by decide⟩

/-- A dateless document for the witness run. -/
def c6WDoc : Doc := { page_content := "hello world", title := some "T" }

/-- Witness for `C6_amended` at a one-document list and budget 400. -/
theorem C6_amended_witness :
    ∃ core suffix : String,
      assemble_context_window [c6WDoc] 100 = core ++ suffix
      ∧ core.length ≤ 100 * 4
      ∧ (suffix = "" ∨ ∃ ns tc : Nat,
          suffix = "\n\n--- Context assembled from " ++ toString ns
            ++ " sources, " ++ toString tc ++ " characters ---") :=
  C6_amended [c6WDoc] 100 (List.cons_ne_nil _ _)
    (fun d hd => by rcases List.mem_singleton.mp hd with rfl; rfl)
